import Mathlib

/-!
# Verification of the STRUMOTDSeedGen merge / dedupe / skip logic

This file gives a shallow embedding in Lean 4 of the record-merging,
deduplication, row-skipping and enrichment routines of the repository
(scripts/build_albums_canon.py, scripts/add_albums_to_calendar_index.py,
scripts/build_calendar_index_songs.py, scripts/pull_births_deaths.py) and
proves the specification claims about them.

DataFrames / CSV row lists are modelled as `List` of structures whose fields
are all `String` (the scripts coerce cell values through `str(...)` at every
comparison point).  Python string primitives are modelled by executable
character-list functions below (`pytrim` for `str.strip`, `pylower` for
`str.lower`, `pyInt?` for `int(...)`, `pyFloatInt?` for `int(float(...))`,
`splitDash` for `str.split("-")`, `charsLt`/`charsLe` for the code-point
lexicographic string comparison that `sort_values` / `list.sort` use).
The models cover ASCII data; Python extras such as unicode whitespace
classes, unicode digits, underscores in numeric literals and float
exponents are outside the model and are noted at each definition.
`pandas.sort_values` / `list.sort` are modelled by `List.insertionSort`
(all claims about sorting only use sortedness and permutation, which hold
for the library sorts as well).  I/O, HTTP, `time.sleep` and progress
printing are dropped; the MusicBrainz lookup is a function parameter
returning `Except Unit (Option String)` so that a raising lookup is
representable.
-/

namespace SeedGen

/-! ## Python string primitives, modelled over `List Char` -/

/-- Whitespace test used by the `str.strip` model (ASCII whitespace and
control characters, matching `String.trim`; Python also strips rarer
unicode whitespace, which is outside the model). -/
def wsChar (c : Char) : Bool := c.toNat ≤ 32

/-- Model of Python `str.strip` on a character list. -/
def pytrimL (l : List Char) : List Char :=
  ((l.dropWhile wsChar).reverse.dropWhile wsChar).reverse

/-- Model of Python `str.strip`. -/
def pytrim (s : String) : String := String.mk (pytrimL s.data)

/-- ASCII lower-casing of one character (Python `str.lower` restricted to
ASCII). -/
def lowerChar (c : Char) : Char :=
  if 65 ≤ c.toNat ∧ c.toNat ≤ 90 then Char.ofNat (c.toNat + 32) else c

/-- Model of Python `str.lower` (ASCII). -/
def pylower (s : String) : String := String.mk (s.data.map lowerChar)

/-- Value of a nonempty all-digit character list, `none` otherwise. -/
def digitsVal? : List Char → Option Nat
  | [] => none
  | l => l.foldl
      (fun acc c =>
        match acc with
        | none => none
        | some n => if c.isDigit then some (n * 10 + (c.toNat - 48)) else none)
      (some 0)

/-- Model of Python `int(...)` applied to an already stripped character
list: an optional sign followed by at least one ASCII digit (Python also
accepts unicode digits and underscore separators, outside the model). -/
def pyIntL? : List Char → Option Int
  | [] => none
  | '-' :: ds => (digitsVal? ds).map (fun n => -(n : Int))
  | '+' :: ds => (digitsVal? ds).map (fun n => (n : Int))
  | ds => (digitsVal? ds).map (fun n => (n : Int))

/-- Model of Python `int(s)` for a string `s` (which strips whitespace
itself); `none` models a raised `ValueError`. -/
def pyInt? (s : String) : Option Int := pyIntL? (pytrimL s.data)

/-- The `int(x) ... except: 0` pattern of the scripts. -/
def pyIntOr0 (s : String) : Int := (pyInt? s).getD 0

/-- Model of Python `str.split(sep)` for a one-character separator. -/
def splitCh (sep : Char) : List Char → List (List Char)
  | [] => [[]]
  | c :: cs =>
    match splitCh sep cs with
    | [] => [[c]]
    | g :: gs => if c = sep then [] :: g :: gs else (c :: g) :: gs

/-- Model of `s.split("-")`. -/
def splitDash (s : String) : List String := (splitCh '-' s.data).map String.mk

/-- Code-point lexicographic strict comparison of character lists: the
order Python string `<` and pandas `sort_values` use. -/
def charsLt : List Char → List Char → Bool
  | _, [] => false
  | [], _ :: _ => true
  | a :: as, b :: bs =>
    if a < b then true else if a = b then charsLt as bs else false

/-- Reflexive closure of `charsLt`. -/
def charsLe (x y : List Char) : Bool := charsLt x y || decide (x = y)

/-- Model of Python `int(float(s))` for plain decimal literals (optional
sign, digits, optional fractional part; exponents, `inf` and `nan` are
outside the model); truncation is toward zero as in Python `int`. -/
def pyFloatInt? (s : String) : Option Int :=
  match splitCh '.' (pytrimL s.data) with
  | [a] => pyIntL? a
  | [a, b] =>
    if b.all Char.isDigit then
      match a with
      | [] => if b = [] then none else some 0
      | ['-'] => if b = [] then none else some 0
      | ['+'] => if b = [] then none else some 0
      | _ => pyIntL? a
    else none
  | _ => none

/-- Two-digit zero padding of an integer, Python `f"{i:02d}"`. -/
def fmt02 (i : Int) : String :=
  let s := toString i
  if s.length ≥ 2 then s else "0" ++ s

/-- Two-digit zero padding of a natural number (month/day positions of
`strftime` / `isoformat`). -/
def pad2 (n : Nat) : String := if n < 10 then "0" ++ toString n else toString n

/-- Four-digit zero padding of a year, as in `date.isoformat`. -/
def pad4 (n : Nat) : String :=
  if n < 10 then "000" ++ toString n
  else if n < 100 then "00" ++ toString n
  else if n < 1000 then "0" ++ toString n
  else toString n

/-- Comma insertion on a reversed digit list, helper for the Python
thousands-separator format `f"{units:,}"`. -/
def insertCommasRev : Nat → List Char → List Char
  | _, [] => []
  | n, c :: cs =>
    if n = 3 then ',' :: c :: insertCommasRev 1 cs
    else c :: insertCommasRev (n + 1) cs

/-- Model of Python `f"{i:,}"`. -/
def pyThousands (i : Int) : String :=
  let digits := (toString i.natAbs).data
  let grouped := String.mk (insertCommasRev 0 digits.reverse).reverse
  if i < 0 then "-" ++ grouped else grouped

/-- State-machine removal of `[...]` citation spans, Python
`re.sub(r"\[[^\]]*\]", "", s)`: the second argument holds the reversed
pending characters since an unclosed opening bracket. -/
def stripCitGo : List Char → Option (List Char) → List Char
  | [], none => []
  | [], some pending => pending.reverse
  | c :: cs, none =>
    if c = '[' then stripCitGo cs (some ['[']) else c :: stripCitGo cs none
  | c :: cs, some pending =>
    if c = ']' then stripCitGo cs none else stripCitGo cs (some (c :: pending))

/-- Model of `re.sub(r"\[[^\]]*\]", "", s)`. -/
def stripCitations (s : String) : String := String.mk (stripCitGo s.data none)

/-- Join with a separator, Python `sep.join(parts)`. -/
def joinSep (sep : String) : List String → String
  | [] => ""
  | [x] => x
  | x :: y :: rest => x ++ sep ++ joinSep sep (y :: rest)

/-! ## Order lemmas for the sort comparators -/

theorem charsLt_irrefl : ∀ x : List Char, charsLt x x = false := by
  intro x
  induction x with
  | nil => rfl
  | cons a as ih => simp [charsLt, ih]

theorem charsLt_cons_iff (a b : Char) (as bs : List Char) :
    charsLt (a :: as) (b :: bs) = true ↔
      a < b ∨ (a = b ∧ charsLt as bs = true) := by
  simp only [charsLt]
  by_cases h : a < b
  · simp [h]
  · by_cases h2 : a = b
    · simp [h, h2]
    · simp [h, h2]

theorem charsLt_trans :
    ∀ x y z : List Char, charsLt x y = true → charsLt y z = true →
      charsLt x z = true := by
  intro x
  induction x with
  | nil =>
    intro y z hxy hyz
    cases z with
    | nil =>
      cases y with
      | nil => exact hxy
      | cons b bs => simp [charsLt] at hyz
    | cons c cs => simp [charsLt]
  | cons a as ih =>
    intro y z hxy hyz
    cases y with
    | nil => simp [charsLt] at hxy
    | cons b bs =>
      cases z with
      | nil => simp [charsLt] at hyz
      | cons c cs =>
        rw [charsLt_cons_iff] at hxy hyz ⊢
        rcases hxy with h1 | ⟨h1, h1r⟩
        · rcases hyz with h2 | ⟨h2, _⟩
          · exact Or.inl (lt_trans h1 h2)
          · exact Or.inl (h2 ▸ h1)
        · rcases hyz with h2 | ⟨h2, h2r⟩
          · exact Or.inl (h1 ▸ h2)
          · exact Or.inr ⟨h1.trans h2, ih _ _ h1r h2r⟩

theorem charsLt_trichotomy :
    ∀ x y : List Char, charsLt x y = true ∨ x = y ∨ charsLt y x = true := by
  intro x
  induction x with
  | nil =>
    intro y
    cases y with
    | nil => exact Or.inr (Or.inl rfl)
    | cons b bs => exact Or.inl (by simp [charsLt])
  | cons a as ih =>
    intro y
    cases y with
    | nil => exact Or.inr (Or.inr (by simp [charsLt]))
    | cons b bs =>
      rcases lt_trichotomy a b with hab | hab | hab
      · exact Or.inl ((charsLt_cons_iff a b as bs).2 (Or.inl hab))
      · subst hab
        rcases ih bs with h | h | h
        · exact Or.inl ((charsLt_cons_iff a a as bs).2 (Or.inr ⟨rfl, h⟩))
        · exact Or.inr (Or.inl (by rw [h]))
        · exact Or.inr (Or.inr ((charsLt_cons_iff a a bs as).2 (Or.inr ⟨rfl, h⟩)))
      · exact Or.inr (Or.inr ((charsLt_cons_iff b a bs as).2 (Or.inl hab)))

theorem charsLe_trans :
    ∀ x y z : List Char, charsLe x y = true → charsLe y z = true →
      charsLe x z = true := by
  intro x y z hxy hyz
  simp only [charsLe, Bool.or_eq_true, decide_eq_true_eq] at hxy hyz ⊢
  rcases hxy with hxy | hxy
  · rcases hyz with hyz | hyz
    · exact Or.inl (charsLt_trans x y z hxy hyz)
    · subst hyz; exact Or.inl hxy
  · subst hxy; exact hyz

theorem charsLe_total :
    ∀ x y : List Char, charsLe x y = true ∨ charsLe y x = true := by
  intro x y
  rcases charsLt_trichotomy x y with h | h | h
  · exact Or.inl (by simp [charsLe, h])
  · exact Or.inl (by simp [charsLe, h])
  · exact Or.inr (by simp [charsLe, h])

/-- Columnwise lexicographic "ascending" comparison on a three string key,
the order produced by `sort_values(by=[c1, c2, c3], ascending=True)`. -/
def lex3Le (a b : String × String × String) : Bool :=
  charsLt a.1.data b.1.data ||
    (decide (a.1 = b.1) &&
      (charsLt a.2.1.data b.2.1.data ||
        (decide (a.2.1 = b.2.1) && charsLe a.2.2.data b.2.2.data)))

theorem string_eq_of_data_eq {a b : String} (h : a.data = b.data) : a = b := by
  cases a; cases b; exact congrArg String.mk h

theorem lex3Le_total : ∀ a b, lex3Le a b = true ∨ lex3Le b a = true := by
  intro a b
  simp only [lex3Le, Bool.or_eq_true, Bool.and_eq_true, decide_eq_true_eq]
  rcases charsLt_trichotomy a.1.data b.1.data with h1 | h1 | h1
  · exact Or.inl (Or.inl h1)
  · have he1 : a.1 = b.1 := string_eq_of_data_eq h1
    rcases charsLt_trichotomy a.2.1.data b.2.1.data with h2 | h2 | h2
    · exact Or.inl (Or.inr ⟨he1, Or.inl h2⟩)
    · have he2 : a.2.1 = b.2.1 := string_eq_of_data_eq h2
      rcases charsLe_total a.2.2.data b.2.2.data with h3 | h3
      · exact Or.inl (Or.inr ⟨he1, Or.inr ⟨he2, h3⟩⟩)
      · exact Or.inr (Or.inr ⟨he1.symm, Or.inr ⟨he2.symm, h3⟩⟩)
    · exact Or.inr (Or.inr ⟨he1.symm, Or.inl h2⟩)
  · exact Or.inr (Or.inl h1)

theorem lex3Le_trans :
    ∀ a b c, lex3Le a b = true → lex3Le b c = true → lex3Le a c = true := by
  intro a b c hab hbc
  simp only [lex3Le, Bool.or_eq_true, Bool.and_eq_true, decide_eq_true_eq]
    at hab hbc ⊢
  rcases hab with hab1 | ⟨hab1, hab2⟩
  · rcases hbc with hbc1 | ⟨hbc1, _⟩
    · exact Or.inl (charsLt_trans _ _ _ hab1 hbc1)
    · exact Or.inl (hbc1 ▸ hab1)
  · rcases hbc with hbc1 | ⟨hbc1, hbc2⟩
    · exact Or.inl (hab1 ▸ hbc1)
    · refine Or.inr ⟨hab1.trans hbc1, ?_⟩
      rcases hab2 with hab2 | ⟨hab2a, hab2b⟩
      · rcases hbc2 with hbc2 | ⟨hbc2a, _⟩
        · exact Or.inl (charsLt_trans _ _ _ hab2 hbc2)
        · exact Or.inl (hbc2a ▸ hab2)
      · rcases hbc2 with hbc2 | ⟨hbc2a, hbc2b⟩
        · exact Or.inl (hab2a ▸ hbc2)
        · exact Or.inr ⟨hab2a.trans hbc2a, charsLe_trans _ _ _ hab2b hbc2b⟩

/-! ## scripts/build_albums_canon.py : albums canon rows and merge -/

/-- One row of `albums_canon.csv` (the `base_cols` schema of
`load_existing`); every cell is modelled as the string the script would
see through `str(...)`. -/
structure CanonRow where
  year : String
  artist : String
  album : String
  label : String
  sales_raw : String
  certification : String
  country : String
  shipments_units : String
  list_source : String
  source_url : String
  musicbrainz_id : String
  mb_release_date_iso : String
  mb_release_year : String
  mb_country : String
  added_on : String
deriving DecidableEq, Inhabited

/-- Composite key of `build_albums_canon.key_from_row`: stripped,
lower-cased `(artist, album)`. -/
def key_from_row (r : CanonRow) : String × String :=
  (pylower (pytrim r.artist), pylower (pytrim r.album))

/-- Index of the last occurrence of a key, modelling the dict
comprehension `{k: i for i, k in enumerate(existing["_key"])}` in which a
later duplicate key overwrites an earlier one. -/
def lastIdxOf? : List (String × String) → (String × String) → Option Nat
  | [], _ => none
  | k :: ks, t =>
    match lastIdxOf? ks t with
    | some i => some (i + 1)
    | none => if k = t then some 0 else none

/-- Field-update pass of `merge_with_existing` for one fresh row against
the snapshot `old` of the matched existing row: the eight designated
columns are visited in source order (`year`, `label`, `sales_raw`,
`shipments_units`, `certification`, `country`, `list_source`,
`source_url`); a plain column is overwritten when the fresh value is
non-empty after stripping and differs from the old value, while
`shipments_units` is overwritten by the parsed fresh integer when it is
strictly larger than the parsed old one.  Every comparison of the Python
loop reads the snapshot `old` and each iteration writes a distinct
column, so the net effect of the loop is this simultaneous per-column
assignment; the boolean is the `changed` flag, set when any column was
written (the disjuncts are listed in loop order). -/
def applyUpdates (old fresh : CanonRow) : CanonRow × Bool :=
  ({ old with
      year :=
        if pytrim fresh.year != "" && fresh.year != old.year then fresh.year
        else old.year,
      label :=
        if pytrim fresh.label != "" && fresh.label != old.label then fresh.label
        else old.label,
      sales_raw :=
        if pytrim fresh.sales_raw != "" && fresh.sales_raw != old.sales_raw then
          fresh.sales_raw
        else old.sales_raw,
      shipments_units :=
        if decide (pyIntOr0 fresh.shipments_units > pyIntOr0 old.shipments_units) then
          toString (pyIntOr0 fresh.shipments_units)
        else old.shipments_units,
      certification :=
        if pytrim fresh.certification != "" && fresh.certification != old.certification then
          fresh.certification
        else old.certification,
      country :=
        if pytrim fresh.country != "" && fresh.country != old.country then
          fresh.country
        else old.country,
      list_source :=
        if pytrim fresh.list_source != "" && fresh.list_source != old.list_source then
          fresh.list_source
        else old.list_source,
      source_url :=
        if pytrim fresh.source_url != "" && fresh.source_url != old.source_url then
          fresh.source_url
        else old.source_url },
    (pytrim fresh.year != "" && fresh.year != old.year) ||
      (pytrim fresh.label != "" && fresh.label != old.label) ||
      (pytrim fresh.sales_raw != "" && fresh.sales_raw != old.sales_raw) ||
      decide (pyIntOr0 fresh.shipments_units > pyIntOr0 old.shipments_units) ||
      (pytrim fresh.certification != "" && fresh.certification != old.certification) ||
      (pytrim fresh.country != "" && fresh.country != old.country) ||
      (pytrim fresh.list_source != "" && fresh.list_source != old.list_source) ||
      (pytrim fresh.source_url != "" && fresh.source_url != old.source_url))

/-- Main loop of `merge_with_existing` over the fresh rows: result is
`(existing after in-place updates, appended new rows, updated_count,
unchanged_count)`.  A matched row gets its `added_on` bumped to `today`
exactly when the `changed` flag is set; an unmatched fresh row is
appended, receiving `added_on = today` only when its own `added_on` is
blank. -/
def mergeLoop (today : String) (emap : String × String → Option Nat) :
    List CanonRow → List CanonRow → List CanonRow × List CanonRow × Nat × Nat
  | [], ex => (ex, [], 0, 0)
  | r :: rs, ex =>
    match emap (key_from_row r) with
    | some idx =>
      let old := ex.getD idx default
      let res := applyUpdates old r
      let ex2 := if res.2 then ex.set idx { res.1 with added_on := today } else ex
      let rest := mergeLoop today emap rs ex2
      if res.2 then (rest.1, rest.2.1, rest.2.2.1 + 1, rest.2.2.2)
      else (rest.1, rest.2.1, rest.2.2.1, rest.2.2.2 + 1)
    | none =>
      let nr := if pytrim r.added_on = "" then { r with added_on := today } else r
      let rest := mergeLoop today emap rs ex
      (rest.1, nr :: rest.2.1, rest.2.2.1, rest.2.2.2)

/-- Key-to-last-index map the script builds over the existing frame. -/
def canonEmap (existing : List CanonRow) : String × String → Option Nat :=
  fun k => lastIdxOf? (existing.map key_from_row) k

/-- Sort order of the final `sort_values(by=["artist", "year", "album"])`. -/
def canonLe (a b : CanonRow) : Prop :=
  lex3Le (a.artist, a.year, a.album) (b.artist, b.year, b.album) = true

instance : DecidableRel canonLe := fun a b => by unfold canonLe; infer_instance

/-- Model of `build_albums_canon.merge_with_existing`: returns
`(merged frame, new_count, updated_count, unchanged_count)`. -/
def merge_with_existing (today : String) (existing fresh : List CanonRow) :
    List CanonRow × Nat × Nat × Nat :=
  let res := mergeLoop today (canonEmap existing) fresh existing
  (List.insertionSort canonLe (res.1 ++ res.2.1),
    res.2.1.length, res.2.2.1, res.2.2.2)

/-! ### Claim-side description of the merge (for the refinement claim C1)

The following definitions follow the wording of the (amended) claim
rather than the code: build a key-to-index map of the existing records;
for each fresh record whose key is present overwrite exactly the
designated fields whose fresh value is non-empty and different (for
`shipments_units`: whose parsed fresh value is strictly larger), setting
`added_on` to today when any such overwrite happens; append a fresh
record whose key is absent, giving it `added_on = today` only when its
own `added_on` is blank. -/

/-- Claim-side single-row upsert: every designated field is overwritten
independently according to the freshness rule, and `added_on` is stamped
exactly when some field is overwritten. -/
def claimUpdateRow (today : String) (old fresh : CanonRow) : CanonRow :=
  { old with
    year :=
      if pytrim fresh.year != "" && fresh.year != old.year then fresh.year
      else old.year,
    label :=
      if pytrim fresh.label != "" && fresh.label != old.label then fresh.label
      else old.label,
    sales_raw :=
      if pytrim fresh.sales_raw != "" && fresh.sales_raw != old.sales_raw then
        fresh.sales_raw
      else old.sales_raw,
    shipments_units :=
      if decide (pyIntOr0 fresh.shipments_units > pyIntOr0 old.shipments_units) then
        toString (pyIntOr0 fresh.shipments_units)
      else old.shipments_units,
    certification :=
      if pytrim fresh.certification != "" && fresh.certification != old.certification then
        fresh.certification
      else old.certification,
    country :=
      if pytrim fresh.country != "" && fresh.country != old.country then
        fresh.country
      else old.country,
    list_source :=
      if pytrim fresh.list_source != "" && fresh.list_source != old.list_source then
        fresh.list_source
      else old.list_source,
    source_url :=
      if pytrim fresh.source_url != "" && fresh.source_url != old.source_url then
        fresh.source_url
      else old.source_url,
    added_on :=
      if (pytrim fresh.year != "" && fresh.year != old.year) ||
          (pytrim fresh.label != "" && fresh.label != old.label) ||
          (pytrim fresh.sales_raw != "" && fresh.sales_raw != old.sales_raw) ||
          decide (pyIntOr0 fresh.shipments_units > pyIntOr0 old.shipments_units) ||
          (pytrim fresh.certification != "" && fresh.certification != old.certification) ||
          (pytrim fresh.country != "" && fresh.country != old.country) ||
          (pytrim fresh.list_source != "" && fresh.list_source != old.list_source) ||
          (pytrim fresh.source_url != "" && fresh.source_url != old.source_url) then
        today
      else old.added_on }

/-- Claim-side stamping of an appended record (amended: a pre-seeded
non-blank `added_on` is preserved). -/
def claimNewRow (today : String) (r : CanonRow) : CanonRow :=
  if pytrim r.added_on = "" then { r with added_on := today } else r

/-- Claim-side merge: process each fresh record against the fixed map,
returning the updated existing records and the appended records. -/
def claimMerge (today : String) (emap : String × String → Option Nat) :
    List CanonRow → List CanonRow → List CanonRow × List CanonRow
  | [], ex => (ex, [])
  | r :: rs, ex =>
    match emap (key_from_row r) with
    | some idx =>
      claimMerge today emap rs
        (ex.set idx (claimUpdateRow today (ex.getD idx default) r))
    | none =>
      let rest := claimMerge today emap rs ex
      (rest.1, claimNewRow today r :: rest.2)

/-! ### MusicBrainz id enrichment (`enrich_mbids`) -/

/-- Indexed rows, modelling `DataFrame.iterrows` original indices. -/
def idxRows : Nat → List CanonRow → List (Nat × CanonRow)
  | _, [] => []
  | n, r :: rs => (n, r) :: idxRows (n + 1) rs

/-- Model of `enrich_mbids` (network, throttling and progress printing
dropped): the candidate rows are those whose `musicbrainz_id` is blank;
each candidate with non-blank album and artist gets one lookup, modelled
by the `lookup` parameter where `Except.error` stands for a raised
exception and `Except.ok none` for an empty search result; a successful
lookup writes the id back at the original index of the row and increments
`filled`, anything else increments `failed`; candidates with blank album
or artist are skipped without counting.  Returns
`(frame, filled, failed)`.  `enrichStep` is the loop body, over the
state `(frame, filled, failed)` and one indexed candidate row. -/
def enrichStep (lookup : CanonRow → Except Unit (Option String))
    (st : List CanonRow × Nat × Nat) (p : Nat × CanonRow) :
    List CanonRow × Nat × Nat :=
  if pytrim p.2.album = "" || pytrim p.2.artist = "" then st
  else
    match (match lookup p.2 with | .ok v => v | .error _ => none) with
    | some m => (st.1.set p.1 { p.2 with musicbrainz_id := m }, st.2.1 + 1, st.2.2)
    | none => (st.1, st.2.1, st.2.2 + 1)

def enrich_mbids (lookup : CanonRow → Except Unit (Option String))
    (df : List CanonRow) : List CanonRow × Nat × Nat :=
  ((idxRows 0 df).filter (fun p => pytrim p.2.musicbrainz_id = "")).foldl
    (enrichStep lookup) (df, 0, 0)

/-- Claim-side candidate test: the rows for which a lookup is actually
attempted. -/
def mbAttempted (r : CanonRow) : Bool :=
  pytrim r.musicbrainz_id = "" && pytrim r.album != "" && pytrim r.artist != ""

/-- Claim-side collapsed lookup outcome: a raised exception and an empty
result are both `none`. -/
def mbLookupResult (lookup : CanonRow → Except Unit (Option String))
    (r : CanonRow) : Option String :=
  match lookup r with
  | .ok v => v
  | .error _ => none

/-- Claim-side per-row effect of the enrichment pass. -/
def enrichRowSpec (lookup : CanonRow → Except Unit (Option String))
    (r : CanonRow) : CanonRow :=
  if mbAttempted r then
    match mbLookupResult lookup r with
    | some m => { r with musicbrainz_id := m }
    | none => r
  else r

/-! ## scripts/add_albums_to_calendar_index.py : calendar rows and merge -/

/-- One row of `calendar_index.csv` (`CAL_BASE_COLS`); all cells are
modelled as strings (`use_count` is carried as its decimal string). -/
structure CalRow where
  key_mmdd : String
  year : String
  iso_date : String
  fact_domain : String
  fact_category : String
  fact_tags : String
  title : String
  byline : String
  role : String
  work_type : String
  summary_template : String
  source_url : String
  source_system : String
  source_id : String
  country : String
  language : String
  extra : String
  used_on : String
  use_count : String
  added_on : String
deriving DecidableEq, Inhabited

/-- One row of `albums_release_delta.csv` after `load_albums_delta`
ensured the expected columns exist. -/
structure DeltaRow where
  work_type : String
  title : String
  byline : String
  release_date : String
  month : String
  day : String
  extra : String
  source_url : String
  sales_raw : String
  shipments_units : String
  date_source : String
  added_on : String
deriving DecidableEq, Inhabited

/-- Model of `make_summary_template`: builds the human-readable summary
with the sales phrase and platinum multiplier. -/
def make_summary_template (title byline iso_date sales_raw shipments_units : String) :
    String :=
  let year := if iso_date.data.length ≥ 4 then String.mk (iso_date.data.take 4) else ""
  let sales_stripped := pytrim sales_raw
  let sales_clean :=
    if sales_stripped = "" then "" else pytrim (stripCitations sales_stripped)
  let units : Int := (pyFloatInt? shipments_units).getD 0
  let sales_phrase :=
    if sales_clean != "" then sales_clean
    else if units > 0 then pyThousands units
    else "millions of"
  let platinum_x : Int := if units > 0 then units / 1000000 else 0
  let base :=
    "On this day in " ++ year ++ ", the album \x27" ++ title ++ "\x27" ++
      (if byline != "" then " by " ++ byline else "") ++ " was released."
  let sales_sentence := " To date, over " ++ sales_phrase ++ " copies have been sold."
  let platinum_sentence :=
    if platinum_x > 0 then
      " This makes it a " ++ toString platinum_x ++ "Ã— platinum seller."
    else ""
  pytrim (base ++ sales_sentence ++ platinum_sentence)

/-- Month/day resolution of `build_album_calendar_rows`: try
`int(month)` and `int(day)`, and on failure fall back to positions 1 and
2 of the dash-split (already stripped) iso date; `none` models the
`continue`. -/
def monthDay? (iso month day : String) : Option (Int × Int) :=
  match pyInt? month, pyInt? day with
  | some m, some d => some (m, d)
  | _, _ =>
    match (splitDash iso).get? 1, (splitDash iso).get? 2 with
    | some p1, some p2 =>
      match pyInt? p1, pyInt? p2 with
      | some m, some d => some (m, d)
      | _, _ => none
    | _, _ => none

/-- Per-row conversion of `build_album_calendar_rows`: `none` models the
two `continue` branches (missing title or release date, unresolvable
month/day); the function is total, so no input row can raise. -/
def rowToCal? (r : DeltaRow) : Option CalRow :=
  let iso_date := pytrim r.release_date
  let title := pytrim r.title
  let byline := pytrim r.byline
  if iso_date = "" || title = "" then none
  else
    let year :=
      match pyInt? ((splitDash iso_date).getD 0 "") with
      | some y => toString y
      | none => ""
    match monthDay? iso_date r.month r.day with
    | none => none
    | some (mm, dd) =>
      some
        { key_mmdd := fmt02 mm ++ fmt02 dd
          year := year
          iso_date := iso_date
          fact_domain := "music"
          fact_category := "album_release"
          fact_tags := "music;album;best_selling"
          title := title
          byline := byline
          role := "artist"
          work_type := "album"
          summary_template :=
            make_summary_template title byline iso_date r.sales_raw r.shipments_units
          source_url := pytrim r.source_url
          source_system := "albums_canon"
          source_id :=
            "album::" ++ iso_date ++ "::" ++ pytrim (pylower title) ++ "::" ++
              pytrim (pylower byline)
          country := ""
          language := "en"
          extra := ""
          used_on := ""
          use_count := "0"
          added_on := pytrim r.added_on }

/-- Model of `build_album_calendar_rows`. -/
def build_album_calendar_rows (delta : List DeltaRow) : List CalRow :=
  delta.filterMap rowToCal?

/-- Claim-side malformedness test for a delta row (claim C6): blank
release date or title after stripping, or month and day unparseable both
from the month/day fields and from the iso date string. -/
def badDeltaRow (r : DeltaRow) : Bool :=
  pytrim r.release_date = "" || pytrim r.title = "" ||
    (((pyInt? r.month).isNone || (pyInt? r.day).isNone) &&
      ((((splitDash (pytrim r.release_date)).get? 1).bind pyInt?).isNone ||
        (((splitDash (pytrim r.release_date)).get? 2).bind pyInt?).isNone))

/-- Deduplication key of `merge_calendar`: `(lower(work_type), iso_date,
lower(title), lower(byline))` with stripping. -/
def calKey (r : CalRow) : String × String × String × String :=
  (pylower (pytrim r.work_type), pytrim r.iso_date,
    pylower (pytrim r.title), pylower (pytrim r.byline))

/-- Sort order of the final
`sort_values(by=["iso_date", "work_type", "title"])`. -/
def calLe (a b : CalRow) : Prop :=
  lex3Le (a.iso_date, a.work_type, a.title) (b.iso_date, b.work_type, b.title) = true

instance : DecidableRel calLe := fun a b => by unfold calLe; infer_instance

instance : IsTotal CalRow calLe :=
  ⟨fun a b => lex3Le_total (a.iso_date, a.work_type, a.title)
    (b.iso_date, b.work_type, b.title)⟩

instance : IsTrans CalRow calLe :=
  ⟨fun a b c => lex3Le_trans (a.iso_date, a.work_type, a.title)
    (b.iso_date, b.work_type, b.title) (c.iso_date, c.work_type, c.title)⟩

/-- Model of `merge_calendar`: when the new frame is empty the existing
frame is returned untouched (the early `return existing`); otherwise the
new rows whose key is absent from the existing key set are appended and
the result is sorted by `(iso_date, work_type, title)`. -/
def merge_calendar (existing new_rows : List CalRow) : List CalRow :=
  if new_rows.isEmpty then existing
  else
    let ekeys := existing.map calKey
    let toAppend := new_rows.filter (fun r => !(decide (calKey r ∈ ekeys)))
    List.insertionSort calLe (existing ++ toAppend)

/-! ## scripts/build_calendar_index_songs.py : song facts and replace-merge -/

/-- One row of `songs_top10_us_with_dates.csv` (the fields the script
reads). -/
structure SongRow where
  title : String
  byline : String
  source_url : String
  work_type : String
  peak_position : String
  release_date : String
  entry_date : String
  peak_date : String
  date_source : String
deriving DecidableEq, Inhabited

/-- Shape test and digit extraction for `FULL_DATE_RX`
(`^\s*(\d{4})-(\d{2})-(\d{2})\s*$`), applied to an already stripped
character list; ASCII digits only. -/
def fullDateShape? (l : List Char) : Option (Nat × Nat × Nat) :=
  match l with
  | [a, b, c, d, '-', e, f, '-', g, h] =>
    if [a, b, c, d, e, f, g, h].all Char.isDigit then
      some
        ((a.toNat - 48) * 1000 + (b.toNat - 48) * 100 + (c.toNat - 48) * 10 +
            (d.toNat - 48),
          (e.toNat - 48) * 10 + (f.toNat - 48),
          (g.toNat - 48) * 10 + (h.toNat - 48))
    else none
  | _ => none

/-- Gregorian leap-year rule of `datetime.date`. -/
def isLeap (y : Nat) : Bool := y % 4 = 0 && (y % 100 ≠ 0 || y % 400 = 0)

/-- Days in a month, as validated by the `datetime.date` constructor. -/
def daysInMonth (y m : Nat) : Nat :=
  if m = 2 then (if isLeap y then 29 else 28)
  else if m = 4 ∨ m = 6 ∨ m = 9 ∨ m = 11 then 30
  else 31

/-- Calendar validity enforced by `datetime.date(y, m, d)` (a failing
constructor raises `ValueError`, which `parse_full_date` catches). -/
def validYMD (y m d : Nat) : Bool :=
  1 ≤ y && y ≤ 9999 && 1 ≤ m && m ≤ 12 && 1 ≤ d && d ≤ daysInMonth y m

/-- Model of `parse_full_date`: regex shape check plus calendar
validation; the result is `(year, month, day)`. -/
def parse_full_date (s : String) : Option (Nat × Nat × Nat) :=
  match fullDateShape? (pytrimL s.data) with
  | some (y, m, d) => if validYMD y m d then some (y, m, d) else none
  | none => none

/-- Model of `compute_song_labels`: which of `release`, `chart_entry`,
`no1` conceptually apply to a song row; a song that peaked at number one
loses its `chart_entry` label. -/
def compute_song_labels (r : SongRow) : List String :=
  let release := pytrim r.release_date
  let entry := pytrim r.entry_date
  let peak := pytrim r.peak_date
  let peak_raw := pytrim r.peak_position
  let has_full_release := (fullDateShape? release.data).isSome
  let has_full_entry := (fullDateShape? entry.data).isSome
  let has_full_peak := (fullDateShape? peak.data).isSome
  let peak_val : Option Int := if peak_raw = "" then none else pyFloatInt? peak_raw
  let is_no1 := peak_val = some 1
  let labels :=
    (if has_full_release then ["release"] else []) ++
      (if has_full_entry then ["chart_entry"] else []) ++
      (if is_no1 && has_full_peak then ["no1"] else [])
  if "no1" ∈ labels ∧ "chart_entry" ∈ labels then labels.erase "chart_entry"
  else labels

/-- Model of `build_extra_field`. -/
def build_extra_field (r : SongRow) : String :=
  let tail :=
    (if pytrim r.release_date != "" then ["release_date=" ++ pytrim r.release_date] else []) ++
      (if pytrim r.entry_date != "" then ["entry_date=" ++ pytrim r.entry_date] else []) ++
      (if pytrim r.peak_date != "" then ["peak_date=" ++ pytrim r.peak_date] else []) ++
      (if pytrim r.peak_position != "" then ["peak_position=" ++ pytrim r.peak_position] else []) ++
      (if pytrim r.date_source != "" then ["date_source=" ++ pytrim r.date_source] else [])
  joinSep ";" ("chart=US Top 10" :: tail)

/-- ISO rendering `date.isoformat()`. -/
def isoOfYMD (y m d : Nat) : String := pad4 y ++ "-" ++ pad2 m ++ "-" ++ pad2 d

/-- The `strftime("%m-%d")` key. -/
def mmddOfMD (m d : Nat) : String := pad2 m ++ "-" ++ pad2 d

/-- Facts built from one song row, in source order (release, chart
entry, number one); `today` stands for `date.today().isoformat()`. -/
def songFactsOfRow (today : String) (r : SongRow) : List CalRow :=
  let title := pytrim r.title
  let byline := pytrim r.byline
  let source_url := pytrim r.source_url
  let work_type := if pytrim r.work_type = "" then "song" else pytrim r.work_type
  let peak_pos := pytrim r.peak_position
  let labels := compute_song_labels r
  let extra := build_extra_field r
  let releaseFacts :=
    match parse_full_date r.release_date with
    | some (y, m, d) =>
      if "release" ∈ labels then
        [{ key_mmdd := mmddOfMD m d
           year := toString y
           iso_date := isoOfYMD y m d
           fact_domain := "arts"
           fact_category := "song"
           fact_tags := "release"
           title := title
           byline := byline
           role := "artist"
           work_type := work_type
           summary_template :=
             if peak_pos != "" then
               "On this day in " ++ toString y ++ ", \"" ++ title ++ "\" by " ++
                 byline ++ " was released. It later reached #" ++ peak_pos ++
                 " on the US charts."
             else
               "On this day in " ++ toString y ++ ", \"" ++ title ++ "\" by " ++
                 byline ++ " was released."
           source_url := source_url
           source_system := "songs_top10_us"
           source_id := ""
           country := "US"
           language := "en"
           extra := extra
           used_on := ""
           use_count := "0"
           added_on := today }]
      else []
    | none => []
  let entryFacts :=
    match parse_full_date r.entry_date with
    | some (y, m, d) =>
      if "chart_entry" ∈ labels then
        [{ key_mmdd := mmddOfMD m d
           year := toString y
           iso_date := isoOfYMD y m d
           fact_domain := "arts"
           fact_category := "song"
           fact_tags := "chart_entry"
           title := title
           byline := byline
           role := "artist"
           work_type := work_type
           summary_template :=
             if peak_pos != "" then
               "On this day in " ++ toString y ++ ", \"" ++ title ++ "\" by " ++
                 byline ++ " entered the US Top 10." ++
                 " It went on to reach #" ++ peak_pos ++ " on the chart."
             else
               "On this day in " ++ toString y ++ ", \"" ++ title ++ "\" by " ++
                 byline ++ " entered the US Top 10."
           source_url := source_url
           source_system := "songs_top10_us"
           source_id := ""
           country := "US"
           language := "en"
           extra := extra
           used_on := ""
           use_count := "0"
           added_on := today }]
      else []
    | none => []
  let no1Facts :=
    match parse_full_date r.peak_date with
    | some (y, m, d) =>
      if "no1" ∈ labels then
        [{ key_mmdd := mmddOfMD m d
           year := toString y
           iso_date := isoOfYMD y m d
           fact_domain := "arts"
           fact_category := "song"
           fact_tags := "no1"
           title := title
           byline := byline
           role := "artist"
           work_type := work_type
           summary_template :=
             "On this day in " ++ toString y ++ ", \"" ++ title ++ "\" by " ++
               byline ++ " hit number one on the US Top 10 chart."
           source_url := source_url
           source_system := "songs_top10_us"
           source_id := ""
           country := "US"
           language := "en"
           extra := extra
           used_on := ""
           use_count := "0"
           added_on := today }]
      else []
    | none => []
  if labels.isEmpty then [] else releaseFacts ++ entryFacts ++ no1Facts

/-- Model of `build_song_facts`. -/
def build_song_facts (today : String) (rows : List SongRow) : List CalRow :=
  rows.flatMap (songFactsOfRow today)

/-- Sort key of the final in-place `merged.sort(...)` in the stand-alone
`main` of the songs script: `(key_mmdd, int(year or 0), fact_category, title)`; a
non-numeric, non-blank year would raise in Python and is modelled as 0
here (no claim depends on it). -/
def songsLe (a b : CalRow) : Prop :=
  (charsLt a.key_mmdd.data b.key_mmdd.data ||
    (decide (a.key_mmdd = b.key_mmdd) &&
      (decide ((pyInt? a.year).getD 0 < (pyInt? b.year).getD 0) ||
        (decide ((pyInt? a.year).getD 0 = (pyInt? b.year).getD 0) &&
          (charsLt a.fact_category.data b.fact_category.data ||
            (decide (a.fact_category = b.fact_category) &&
              charsLe a.title.data b.title.data)))))) = true

instance : DecidableRel songsLe := fun a b => by unfold songsLe; infer_instance

/-- Model of the merge step of `build_calendar_index_songs.main`
(lines 294-320): keep only the existing rows whose `source_system` is not
`songs_top10_us`, append the freshly built song facts, and sort. -/
def build_calendar_index_songs_merge (today : String)
    (existing : List CalRow) (songs : List SongRow) : List CalRow :=
  let kept := existing.filter (fun r => pytrim r.source_system != "songs_top10_us")
  List.insertionSort songsLe (kept ++ build_song_facts today songs)

/-! ## scripts/pull_births_deaths.py : dedupe -/

/-- One row produced by the births/deaths parser (the `FIELDS` schema). -/
structure BDRow where
  work_type : String
  title : String
  byline : String
  release_date : String
  month : String
  day : String
  extra : String
  source_url : String
deriving DecidableEq, Inhabited

/-- Deduplication key of `pull_births_deaths.dedupe`:
`(work_type, title.lower(), release_date)` (no stripping). -/
def bdKey (r : BDRow) : String × String × String :=
  (r.work_type, pylower r.title, r.release_date)

/-- Loop of `dedupe` carrying the `seen` key set. -/
def dedupeGo (seen : List (String × String × String)) :
    List BDRow → List BDRow
  | [] => []
  | r :: rs =>
    if bdKey r ∈ seen then dedupeGo seen rs
    else r :: dedupeGo (bdKey r :: seen) rs

/-- Model of `pull_births_deaths.dedupe`. -/
def dedupe (rows : List BDRow) : List BDRow := dedupeGo [] rows

/-! ## General helper lemmas -/

theorem set_getD_self {α : Type} :
    ∀ (l : List α) (i : Nat) (d : α), l.set i (l.getD i d) = l := by
  intro l
  induction l with
  | nil => intro i d; rfl
  | cons a as ih =>
    intro i d
    cases i with
    | zero => rfl
    | succ n => exact congrArg (List.cons a) (ih n d)

theorem getD_map {α β : Type} (f : α → β) :
    ∀ (l : List α) (i : Nat) (d : α),
      (l.map f).getD i (f d) = f (l.getD i d) := by
  intro l
  induction l with
  | nil => intro i d; rfl
  | cons a as ih =>
    intro i d
    cases i with
    | zero => rfl
    | succ n => exact ih n d

theorem lastIdxOf?_eq_none_iff (ks : List (String × String)) (k : String × String) :
    lastIdxOf? ks k = none ↔ k ∉ ks := by
  induction ks with
  | nil => simp [lastIdxOf?]
  | cons k0 ks ih =>
    simp only [lastIdxOf?]
    cases h : lastIdxOf? ks k with
    | some i =>
      simp only []
      constructor
      · intro hc; exact absurd hc (by simp)
      · intro hmem
        exfalso
        have : k ∉ ks := fun hk => hmem (List.mem_cons_of_mem _ hk)
        rw [← ih] at this
        rw [h] at this
        exact Option.some_ne_none i this
    | none =>
      have hk : k ∉ ks := (ih).1 h
      by_cases he : k0 = k
      · subst he
        simp
      · simp only [if_neg he, List.mem_cons, not_or]
        exact ⟨fun _ => ⟨fun hh => he hh.symm, hk⟩, fun _ => trivial⟩

theorem lastIdxOf?_isSome_of_mem {ks : List (String × String)}
    {k : String × String} (h : k ∈ ks) : (lastIdxOf? ks k).isSome := by
  cases hc : lastIdxOf? ks k with
  | some i => rfl
  | none => exact absurd h ((lastIdxOf?_eq_none_iff ks k).1 hc)

/-! ## C10 : dedupe of pull_births_deaths -/

theorem dedupeGo_sublist (seen : List (String × String × String)) :
    ∀ rows : List BDRow, (dedupeGo seen rows).Sublist rows := by
  intro rows
  induction rows generalizing seen with
  | nil => simp [dedupeGo]
  | cons r rs ih =>
    simp only [dedupeGo]
    by_cases h : bdKey r ∈ seen
    · simp only [if_pos h]
      exact (ih seen).trans (List.sublist_cons_self r rs)
    · simp only [if_neg h]
      exact (ih (bdKey r :: seen)).cons₂ r

theorem dedupeGo_keys_nodup (seen : List (String × String × String)) :
    ∀ rows : List BDRow,
      ((dedupeGo seen rows).map bdKey).Nodup ∧
        ∀ k ∈ (dedupeGo seen rows).map bdKey, k ∉ seen := by
  intro rows
  induction rows generalizing seen with
  | nil => simp [dedupeGo]
  | cons r rs ih =>
    simp only [dedupeGo]
    by_cases h : bdKey r ∈ seen
    · simpa only [if_pos h] using ih seen
    · simp only [if_neg h, List.map_cons, List.nodup_cons]
      obtain ⟨ihn, ihs⟩ := ih (bdKey r :: seen)
      refine ⟨⟨fun hmem => ?_, ihn⟩, ?_⟩
      · exact (ihs _ hmem) (List.mem_cons_self _ _)
      · intro k hk
        rw [List.mem_cons] at hk
        rcases hk with hk | hk
        · rw [hk]; exact h
        · intro hks
          exact (ihs k hk) (List.mem_cons_of_mem _ hks)

theorem dedupeGo_of_nodup (seen : List (String × String × String)) :
    ∀ rows : List BDRow, (rows.map bdKey).Nodup →
      (∀ k ∈ rows.map bdKey, k ∉ seen) → dedupeGo seen rows = rows := by
  intro rows
  induction rows generalizing seen with
  | nil => intro _ _; rfl
  | cons r rs ih =>
    intro hn hs
    simp only [List.map_cons, List.nodup_cons] at hn
    have hr : bdKey r ∉ seen := hs _ (by simp)
    simp only [dedupeGo, if_neg hr]
    congr 1
    refine ih (bdKey r :: seen) hn.2 ?_
    intro k hk
    simp only [List.mem_cons]
    rintro (hk2 | hk2)
    · exact hn.1 (hk2 ▸ hk)
    · exact hs k (List.mem_cons_of_mem _ hk) hk2

theorem dedupeGo_first_occurrence (seen : List (String × String × String)) :
    ∀ (rows : List BDRow) (r : BDRow), r ∈ rows → bdKey r ∉ seen →
      ∃ x, rows.find? (fun y => bdKey y == bdKey r) = some x ∧
        x ∈ dedupeGo seen rows := by
  intro rows
  induction rows generalizing seen with
  | nil => intro r h; exact absurd h (by simp)
  | cons q qs ih =>
    intro r hmem hseen
    by_cases hk : bdKey q = bdKey r
    · refine ⟨q, ?_, ?_⟩
      · have hbeq : (bdKey q == bdKey r) = true := beq_iff_eq.2 hk
        simp [List.find?, hbeq]
      · have hq : bdKey q ∉ seen := by rw [hk]; exact hseen
        simp [dedupeGo, if_neg hq]
    · have hbeq : (bdKey q == bdKey r) = false := beq_eq_false_iff_ne.2 hk
      have hfind : (q :: qs).find? (fun y => bdKey y == bdKey r) =
          qs.find? (fun y => bdKey y == bdKey r) := by
        simp [List.find?, hbeq]
      have hr : r ∈ qs := by
        rcases List.mem_cons.1 hmem with h | h
        · exact absurd (congrArg bdKey h.symm) hk
        · exact h
      rw [hfind]
      simp only [dedupeGo]
      by_cases hq : bdKey q ∈ seen
      · simpa only [if_pos hq] using ih seen r hr hseen
      · simp only [if_neg hq]
        have hseen2 : bdKey r ∉ bdKey q :: seen := by
          simp only [List.mem_cons]
          rintro (h | h)
          · exact hk h.symm
          · exact hseen h
        obtain ⟨x, hx1, hx2⟩ := ih (bdKey q :: seen) r hr hseen2
        exact ⟨x, hx1, List.mem_cons_of_mem _ hx2⟩

/-- C10 : `dedupe` keeps the first occurrence of each
`(work_type, lower(title), release_date)` key in input order, its output
has pairwise distinct keys, and it is idempotent. -/
theorem dedupe_first_in_order_nodup_idempotent (rows : List BDRow) :
    (dedupe rows).Sublist rows ∧
      (∀ r ∈ rows, ∃ x, rows.find? (fun y => bdKey y == bdKey r) = some x ∧
        x ∈ dedupe rows) ∧
      ((dedupe rows).map bdKey).Nodup ∧
      dedupe (dedupe rows) = dedupe rows := by
  refine ⟨dedupeGo_sublist [] rows, ?_, (dedupeGo_keys_nodup [] rows).1, ?_⟩
  · intro r hr
    exact dedupeGo_first_occurrence [] rows r hr (by simp)
  · exact dedupeGo_of_nodup [] (dedupe rows) (dedupeGo_keys_nodup [] rows).1
      (by simp)

/-- Witness for C10 at a concrete input: two rows with equal keys (the
titles differ only by case) and one with a different date; the first
occurrence survives, the duplicate is dropped, keys are distinct, and a
second dedupe changes nothing. -/
theorem dedupe_first_in_order_nodup_idempotent_witness :
    (dedupe [⟨"birth", "Ada", "", "1815-12-10", "12", "10", "", ""⟩,
        ⟨"birth", "ADA", "x", "1815-12-10", "12", "10", "", ""⟩,
        ⟨"birth", "Ada", "", "1816-12-10", "12", "10", "", ""⟩] =
      [⟨"birth", "Ada", "", "1815-12-10", "12", "10", "", ""⟩,
        ⟨"birth", "Ada", "", "1816-12-10", "12", "10", "", ""⟩]) ∧
      (∃ x, ([⟨"birth", "Ada", "", "1815-12-10", "12", "10", "", ""⟩,
          ⟨"birth", "ADA", "x", "1815-12-10", "12", "10", "", ""⟩,
          ⟨"birth", "Ada", "", "1816-12-10", "12", "10", "", ""⟩] :
            List BDRow).find?
          (fun y => bdKey y == bdKey ⟨"birth", "ADA", "x", "1815-12-10", "12", "10", "", ""⟩) =
            some x ∧
        x ∈ dedupe [⟨"birth", "Ada", "", "1815-12-10", "12", "10", "", ""⟩,
          ⟨"birth", "ADA", "x", "1815-12-10", "12", "10", "", ""⟩,
          ⟨"birth", "Ada", "", "1816-12-10", "12", "10", "", ""⟩]) := by
  constructor
  · decide
  · exact (dedupe_first_in_order_nodup_idempotent _).2.1
      ⟨"birth", "ADA", "x", "1815-12-10", "12", "10", "", ""⟩ (by decide)

/-! ## C3 : per-row classification counts of merge_with_existing -/

theorem mergeLoop_counts (today : String) (emap : String × String → Option Nat) :
    ∀ (fresh ex : List CanonRow),
      (mergeLoop today emap fresh ex).2.2.1 +
          (mergeLoop today emap fresh ex).2.2.2 +
          (mergeLoop today emap fresh ex).2.1.length = fresh.length ∧
        (mergeLoop today emap fresh ex).1.length = ex.length := by
  intro fresh
  induction fresh with
  | nil => intro ex; simp [mergeLoop]
  | cons r rs ih =>
    intro ex
    simp only [mergeLoop]
    cases hm : emap (key_from_row r) with
    | some idx =>
      cases hc : (applyUpdates (ex.getD idx default) r).2
      · obtain ⟨h1, h2⟩ := ih ex
        simp only [hc, Bool.false_eq_true, if_false, List.length_cons]
        exact ⟨by omega, h2⟩
      · obtain ⟨h1, h2⟩ := ih (ex.set idx
          { (applyUpdates (ex.getD idx default) r).1 with added_on := today })
        simp only [hc, eq_self_iff_true, if_true, List.length_cons]
        dsimp only at h1 h2 ⊢
        exact ⟨by omega, by rw [h2, List.length_set]⟩
    | none =>
      obtain ⟨h1, h2⟩ := ih ex
      dsimp only
      constructor
      · simp only [List.length_cons]
        omega
      · exact h2

/-- C3 : every fresh row of `merge_with_existing` lands in exactly one of
the three outcomes: `new_count + updated_count + unchanged_count` equals
the number of fresh rows, and the merged frame has
`existing rows + new_count` rows. -/
theorem merge_with_existing_counts (today : String)
    (existing fresh : List CanonRow) :
    (merge_with_existing today existing fresh).2.1 +
        (merge_with_existing today existing fresh).2.2.1 +
        (merge_with_existing today existing fresh).2.2.2 = fresh.length ∧
      (merge_with_existing today existing fresh).1.length =
        existing.length + (merge_with_existing today existing fresh).2.1 := by
  obtain ⟨h1, h2⟩ := mergeLoop_counts today (canonEmap existing) fresh existing
  unfold merge_with_existing
  constructor
  · dsimp only
    omega
  · dsimp only
    simp only [List.length_insertionSort, List.length_append]
    omega

/-! ## Bridge between the sequential update pass and its claim-side form -/

theorem applyUpdates_claim (today : String) (old fresh : CanonRow) :
    (if (applyUpdates old fresh).2 then
      { (applyUpdates old fresh).1 with added_on := today }
    else (applyUpdates old fresh).1) = claimUpdateRow today old fresh := by
  unfold applyUpdates claimUpdateRow
  rcases Bool.eq_false_or_eq_true
      ((pytrim fresh.year != "" && fresh.year != old.year) ||
        (pytrim fresh.label != "" && fresh.label != old.label) ||
        (pytrim fresh.sales_raw != "" && fresh.sales_raw != old.sales_raw) ||
        decide (pyIntOr0 fresh.shipments_units > pyIntOr0 old.shipments_units) ||
        (pytrim fresh.certification != "" && fresh.certification != old.certification) ||
        (pytrim fresh.country != "" && fresh.country != old.country) ||
        (pytrim fresh.list_source != "" && fresh.list_source != old.list_source) ||
        (pytrim fresh.source_url != "" && fresh.source_url != old.source_url))
    with hd | hd <;>
    rw [hd] <;> rfl

theorem applyUpdates_unchanged (old fresh : CanonRow)
    (h : (applyUpdates old fresh).2 = false) :
    (applyUpdates old fresh).1 = old := by
  unfold applyUpdates at h ⊢
  dsimp only at h
  simp only [Bool.or_eq_false_iff] at h
  obtain ⟨⟨⟨⟨⟨⟨⟨h1, h2⟩, h3⟩, h4⟩, h5⟩, h6⟩, h7⟩, h8⟩ := h
  dsimp only
  simp only [h1, h2, h3, h4, h5, h6, h7, h8, Bool.false_eq_true, if_false]

theorem mergeLoop_claimMerge (today : String)
    (emap : String × String → Option Nat) :
    ∀ (fresh ex : List CanonRow),
      (mergeLoop today emap fresh ex).1 = (claimMerge today emap fresh ex).1 ∧
        (mergeLoop today emap fresh ex).2.1 = (claimMerge today emap fresh ex).2 := by
  intro fresh
  induction fresh with
  | nil => intro ex; exact ⟨rfl, rfl⟩
  | cons r rs ih =>
    intro ex
    simp only [mergeLoop, claimMerge]
    cases hm : emap (key_from_row r) with
    | some idx =>
      dsimp only
      have hcl := applyUpdates_claim today (ex.getD idx default) r
      cases hc : (applyUpdates (ex.getD idx default) r).2
      · rw [hc] at hcl
        simp only [Bool.false_eq_true, if_false] at hcl
        rw [applyUpdates_unchanged _ _ hc] at hcl
        simp only [hc, Bool.false_eq_true, if_false]
        rw [← hcl, set_getD_self]
        exact ih ex
      · rw [hc] at hcl
        simp only [eq_self_iff_true, if_true] at hcl
        simp only [hc, eq_self_iff_true, if_true]
        rw [← hcl]
        exact ih (ex.set idx
          { (applyUpdates (ex.getD idx default) r).1 with added_on := today })
    | none =>
      dsimp only
      refine ⟨(ih ex).1, ?_⟩
      rw [(ih ex).2]
      rfl

/-- C1 (amended) : `merge_with_existing` implements the claim-side
description: it builds the key-to-last-index map over the existing
records; a fresh record with a present key overwrites exactly the
designated fields whose fresh value is non-empty after stripping and
different (`shipments_units`: whose parsed fresh value is strictly
larger, written back as the parsed integer), stamping the `added_on` of
the row to today exactly when some overwrite happened; a fresh record
with an absent key is appended, `added_on` being set to today only when
the own `added_on` field of the record is blank (amendment: a pre-seeded non-blank
`added_on` is preserved, and the shipments rule is the numeric one);
`new_count` counts the appended records. -/
theorem merge_with_existing_matches_claim (today : String)
    (existing fresh : List CanonRow) :
    (merge_with_existing today existing fresh).1 =
      List.insertionSort canonLe
        ((claimMerge today (canonEmap existing) fresh existing).1 ++
          (claimMerge today (canonEmap existing) fresh existing).2) ∧
      (merge_with_existing today existing fresh).2.1 =
        (claimMerge today (canonEmap existing) fresh existing).2.length := by
  obtain ⟨h1, h2⟩ := mergeLoop_claimMerge today (canonEmap existing) fresh existing
  unfold merge_with_existing
  dsimp only
  rw [h1, h2]
  exact ⟨rfl, rfl⟩

/-- Canon row with the given artist, album, shipments and added_on and
every other cell blank (concrete test data). -/
def canonRowOf (artist album shipments added : String) : CanonRow :=
  { year := "", artist := artist, album := album, label := "", sales_raw := "",
    certification := "", country := "", shipments_units := shipments,
    list_source := "", source_url := "", musicbrainz_id := "",
    mb_release_date_iso := "", mb_release_year := "", mb_country := "",
    added_on := added }

/-- Counterexample to C1 as literally stated: with
`existing = [(a, b, shipments "-5", added_on "2019-01-01")]` and fresh
rows `[(a, b, shipments "", added_on ""), (c, d, shipments "", added_on
"2020-05-05")]` on `today = "2026-10-12"`, the `shipments_units` cell of
the matched row is overwritten (to `"0"`) although the fresh value is
empty after stripping, and the appended row keeps its pre-seeded
`added_on = "2020-05-05"` instead of receiving the date of today. -/
theorem merge_with_existing_claim_counterexample :
    ((merge_with_existing "2026-10-12" [canonRowOf "a" "b" "-5" "2019-01-01"]
        [canonRowOf "a" "b" "" "", canonRowOf "c" "d" "" "2020-05-05"]).1.map
      (fun r => (r.artist, r.shipments_units, r.added_on))) =
        [("a", "0", "2026-10-12"), ("c", "", "2020-05-05")] ∧
      pytrim (canonRowOf "a" "b" "" "").shipments_units = "" ∧
      ("2020-05-05" : String) ≠ "2026-10-12" := by
  refine ⟨by decide, by decide, by decide⟩

/-- C4 : when a fresh record matches an existing key and none of the
designated fields change (the update pass reports `changed = false`),
the existing frame is returned unmodified (only sorted), so the matched
row keeps its prior `added_on`, and the run counts one unchanged row. -/
theorem merge_unchanged_row_keeps_added_on (today : String)
    (existing : List CanonRow) (r : CanonRow) (i : Nat)
    (hidx : canonEmap existing (key_from_row r) = some i)
    (hnc : (applyUpdates (existing.getD i default) r).2 = false) :
    merge_with_existing today existing [r] =
      (List.insertionSort canonLe existing, 0, 0, 1) := by
  unfold merge_with_existing
  dsimp only
  simp only [mergeLoop, hidx, hnc, Bool.false_eq_true, if_false,
    List.append_nil, List.length_nil, Nat.zero_add]

/-- Witness for C4: a fresh row differing from the stored one only in
key case/whitespace and offering no new field values leaves the frame
untouched and is counted as unchanged. -/
theorem merge_unchanged_row_keeps_added_on_witness :
    canonEmap [canonRowOf "a" "b" "5" "2019-01-01"]
        (key_from_row (canonRowOf "A " "B" "5" "")) = some 0 ∧
      (applyUpdates ([canonRowOf "a" "b" "5" "2019-01-01"].getD 0 default)
          (canonRowOf "A " "B" "5" "")).2 = false ∧
      merge_with_existing "2026-10-12" [canonRowOf "a" "b" "5" "2019-01-01"]
          [canonRowOf "A " "B" "5" ""] =
        (List.insertionSort canonLe [canonRowOf "a" "b" "5" "2019-01-01"], 0, 0, 1) :=
  ⟨by decide, by decide,
    merge_unchanged_row_keeps_added_on "2026-10-12" _ _ 0 (by decide) (by decide)⟩

/-- C8 : records whose artist and album agree after stripping and
lower-casing get the same composite key, and merging such a fresh record
never appends: the new-row count is zero and the frame size is
unchanged (the record was treated as an update or as unchanged). -/
theorem key_normalization_prevents_reappend (today : String)
    (existing : List CanonRow) (e r : CanonRow)
    (he : e ∈ existing)
    (ha : pylower (pytrim r.artist) = pylower (pytrim e.artist))
    (hb : pylower (pytrim r.album) = pylower (pytrim e.album)) :
    key_from_row r = key_from_row e ∧
      (merge_with_existing today existing [r]).2.1 = 0 ∧
      (merge_with_existing today existing [r]).1.length = existing.length := by
  have hkey : key_from_row r = key_from_row e := by
    unfold key_from_row
    rw [ha, hb]
  refine ⟨hkey, ?_⟩
  have hmem : key_from_row r ∈ existing.map key_from_row := by
    rw [hkey]
    exact List.mem_map_of_mem _ he
  have hsome := lastIdxOf?_isSome_of_mem hmem
  cases hidx : lastIdxOf? (existing.map key_from_row) (key_from_row r) with
  | none =>
    rw [hidx] at hsome
    exact absurd hsome (by simp)
  | some i =>
    have hmap : canonEmap existing (key_from_row r) = some i := hidx
    unfold merge_with_existing
    dsimp only
    simp only [mergeLoop, hmap]
    cases hc : (applyUpdates (existing.getD i default) r).2
    · simp only [Bool.false_eq_true, if_false, List.append_nil, List.length_nil,
        List.length_insertionSort]
      exact ⟨trivial, trivial⟩
    · simp only [eq_self_iff_true, if_true, List.append_nil, List.length_nil,
        List.length_insertionSort, List.length_set]
      exact ⟨trivial, trivial⟩

/-- Witness for C8: `"  ABBA  "/"gOLD"` matches the stored
`"Abba"/"Gold"` (same key after normalization) even though the raw
strings differ, and the merge appends nothing. -/
theorem key_normalization_prevents_reappend_witness :
    (canonRowOf "  ABBA  " "gOLD" "" "").artist ≠
        (canonRowOf "Abba" "Gold" "" "").artist ∧
      key_from_row (canonRowOf "  ABBA  " "gOLD" "" "") =
        key_from_row (canonRowOf "Abba" "Gold" "" "") ∧
      (merge_with_existing "2026-10-12" [canonRowOf "Abba" "Gold" "" ""]
          [canonRowOf "  ABBA  " "gOLD" "" ""]).2.1 = 0 ∧
      (merge_with_existing "2026-10-12" [canonRowOf "Abba" "Gold" "" ""]
          [canonRowOf "  ABBA  " "gOLD" "" ""]).1.length = 1 :=
  ⟨by decide,
    key_normalization_prevents_reappend "2026-10-12"
      [canonRowOf "Abba" "Gold" "" ""] (canonRowOf "Abba" "Gold" "" "")
      (canonRowOf "  ABBA  " "gOLD" "" "") (by decide) (by decide) (by decide)⟩

/-! ## C2 : key uniqueness of the merged outputs -/

theorem key_claimUpdateRow (today : String) (old r : CanonRow) :
    key_from_row (claimUpdateRow today old r) = key_from_row old := rfl

theorem key_claimNewRow (today : String) (r : CanonRow) :
    key_from_row (claimNewRow today r) = key_from_row r := by
  unfold claimNewRow
  split <;> rfl

theorem claimMerge_fst_keys (today : String)
    (emap : String × String → Option Nat) :
    ∀ (fresh ex : List CanonRow),
      (claimMerge today emap fresh ex).1.map key_from_row =
        ex.map key_from_row := by
  intro fresh
  induction fresh with
  | nil => intro ex; rfl
  | cons r rs ih =>
    intro ex
    simp only [claimMerge]
    cases hm : emap (key_from_row r) with
    | some idx =>
      dsimp only
      rw [ih, List.map_set, key_claimUpdateRow,
        show key_from_row (ex.getD idx default) =
            (ex.map key_from_row).getD idx (key_from_row default) from
          (getD_map key_from_row ex idx default).symm]
      exact set_getD_self _ _ _
    | none => exact ih ex

theorem claimMerge_snd_news (today : String)
    (emap : String × String → Option Nat) :
    ∀ (fresh ex : List CanonRow),
      (claimMerge today emap fresh ex).2 =
        (fresh.filter (fun r => (emap (key_from_row r)).isNone)).map
          (claimNewRow today) := by
  intro fresh
  induction fresh with
  | nil => intro ex; rfl
  | cons r rs ih =>
    intro ex
    simp only [claimMerge]
    cases hm : emap (key_from_row r) with
    | some idx =>
      dsimp only
      rw [List.filter_cons_of_neg (by simp [hm])]
      exact ih _
    | none =>
      dsimp only
      rw [List.filter_cons_of_pos (by simp [hm]), ih ex]
      rfl

theorem merge_with_existing_nodup_keys (today : String)
    (ex fresh : List CanonRow)
    (hex : (ex.map key_from_row).Nodup)
    (hfr : (fresh.map key_from_row).Nodup) :
    ((merge_with_existing today ex fresh).1.map key_from_row).Nodup := by
  have hkey1 := claimMerge_fst_keys today (canonEmap ex) fresh ex
  have hkey2 := claimMerge_snd_news today (canonEmap ex) fresh ex
  obtain ⟨hL1, hL2⟩ := mergeLoop_claimMerge today (canonEmap ex) fresh ex
  have hnews_keys : (claimMerge today (canonEmap ex) fresh ex).2.map key_from_row =
      (fresh.filter (fun r => (canonEmap ex (key_from_row r)).isNone)).map
        key_from_row := by
    rw [hkey2, List.map_map]
    exact List.map_congr_left (fun a _ => key_claimNewRow today a)
  have hnn : ((claimMerge today (canonEmap ex) fresh ex).2.map key_from_row).Nodup := by
    rw [hnews_keys]
    exact List.Nodup.sublist
      (List.Sublist.map key_from_row (List.filter_sublist fresh)) hfr
  have hdisj : ((claimMerge today (canonEmap ex) fresh ex).1.map key_from_row).Disjoint
      ((claimMerge today (canonEmap ex) fresh ex).2.map key_from_row) := by
    intro k hk1 hk2
    rw [hkey1] at hk1
    rw [hnews_keys] at hk2
    obtain ⟨r2, hr2mem, hr2key⟩ := List.mem_map.1 hk2
    rw [List.mem_filter] at hr2mem
    have hnone : lastIdxOf? (ex.map key_from_row) (key_from_row r2) = none :=
      Option.isNone_iff_eq_none.1 hr2mem.2
    have habs : key_from_row r2 ∉ ex.map key_from_row :=
      (lastIdxOf?_eq_none_iff _ _).1 hnone
    rw [hr2key] at habs
    exact habs hk1
  unfold merge_with_existing
  dsimp only
  rw [hL1, hL2]
  refine ((List.perm_insertionSort canonLe _).map key_from_row).nodup_iff.2 ?_
  rw [List.map_append]
  exact List.nodup_append.2 ⟨by rw [hkey1]; exact hex, hnn, hdisj⟩

theorem merge_calendar_props (cex cns : List CalRow)
    (hcex : (cex.map calKey).Nodup)
    (hcns : (cns.map calKey).Nodup) :
    ((merge_calendar cex cns).map calKey).Nodup ∧
      (∀ e ∈ cex, e ∈ merge_calendar cex cns) ∧
      (merge_calendar cex cns).length =
        cex.length +
          (cns.filter (fun r => !(decide (calKey r ∈ cex.map calKey)))).length := by
  cases cns with
  | nil =>
    refine ⟨hcex, fun e he => he, ?_⟩
    simp [merge_calendar]
  | cons c cs =>
    unfold merge_calendar
    simp only [List.isEmpty_cons, Bool.false_eq_true, if_false]
    have hperm := List.perm_insertionSort calLe
      (cex ++ (c :: cs).filter (fun r => !(decide (calKey r ∈ cex.map calKey))))
    refine ⟨?_, ?_, ?_⟩
    · refine ((hperm.map calKey).nodup_iff).2 ?_
      rw [List.map_append]
      refine List.nodup_append.2 ⟨hcex, ?_, ?_⟩
      · exact List.Nodup.sublist
          (List.Sublist.map calKey (List.filter_sublist (c :: cs))) hcns
      · intro k hk1 hk2
        obtain ⟨r2, hr2mem, hr2key⟩ := List.mem_map.1 hk2
        rw [List.mem_filter] at hr2mem
        have : ¬ (calKey r2 ∈ cex.map calKey) := by
          have := hr2mem.2
          simp only [Bool.not_eq_eq_eq_not, Bool.not_true, decide_eq_false_iff_not]
            at this
          exact this
        exact this (hr2key ▸ hk1)
    · intro e he
      exact (hperm.mem_iff).2 (List.mem_append_left _ he)
    · rw [List.length_insertionSort, List.length_append]

/-- C2 (amended) : provided each input frame has pairwise distinct
composite keys, the merged outputs contain at most one record per key:
`merge_with_existing` output keys are pairwise distinct, and so are
`merge_calendar` output keys; moreover `merge_calendar` keeps every
existing record and appends exactly the new records whose key is absent
from the existing key set (amendment: the claim as stated fails when an
input frame itself repeats a key, since neither function deduplicates
inside the incoming frame). -/
theorem merge_outputs_unique_keys (today : String)
    (ex fresh : List CanonRow) (cex cns : List CalRow)
    (hex : (ex.map key_from_row).Nodup)
    (hfr : (fresh.map key_from_row).Nodup)
    (hcex : (cex.map calKey).Nodup)
    (hcns : (cns.map calKey).Nodup) :
    ((merge_with_existing today ex fresh).1.map key_from_row).Nodup ∧
      ((merge_calendar cex cns).map calKey).Nodup ∧
      (∀ e ∈ cex, e ∈ merge_calendar cex cns) ∧
      (merge_calendar cex cns).length =
        cex.length +
          (cns.filter (fun r => !(decide (calKey r ∈ cex.map calKey)))).length :=
  ⟨merge_with_existing_nodup_keys today ex fresh hex hfr,
    merge_calendar_props cex cns hcex hcns⟩

/-- Calendar row with the given work_type, iso_date, title and byline
and every other cell blank (concrete test data). -/
def calRowOf (wt iso title byline : String) : CalRow :=
  { key_mmdd := "", year := "", iso_date := iso, fact_domain := "",
    fact_category := "", fact_tags := "", title := title, byline := byline,
    role := "", work_type := wt, summary_template := "", source_url := "",
    source_system := "", source_id := "", country := "", language := "",
    extra := "", used_on := "", use_count := "", added_on := "" }

/-- Counterexample to C2 as literally stated: two incoming rows with the
same key are both appended by `merge_calendar` (the key set is not
updated during the loop), so the output has two records with one key. -/
theorem merge_outputs_unique_keys_counterexample :
    merge_calendar []
        [calRowOf "album" "2020-01-01" "t" "b",
          calRowOf "album" "2020-01-01" "t" "b"] =
      [calRowOf "album" "2020-01-01" "t" "b",
        calRowOf "album" "2020-01-01" "t" "b"] ∧
      ¬ ((merge_calendar []
          [calRowOf "album" "2020-01-01" "t" "b",
            calRowOf "album" "2020-01-01" "t" "b"]).map calKey).Nodup :=
  ⟨by decide, by decide⟩

/-- Witness for C2 at a concrete input: existing holds key `(a, b)`, the
fresh frame re-offers `(a, b)` plus a new key `(c, d)`; the canon merge
output keys stay distinct, and the calendar merge keeps its single
existing row, appends one of two offered rows, and has distinct keys. -/
theorem merge_outputs_unique_keys_witness :
    ((merge_with_existing "2026-10-12" [canonRowOf "a" "b" "" ""]
        [canonRowOf "a" "b" "" "", canonRowOf "c" "d" "" ""]).1.map
      key_from_row).Nodup ∧
      ((merge_calendar [calRowOf "album" "2020-01-01" "t" "b"]
          [calRowOf "album" "2020-01-01" "t" "b",
            calRowOf "album" "2021-02-02" "u" "v"]).map calKey).Nodup ∧
      calRowOf "album" "2020-01-01" "t" "b" ∈
        merge_calendar [calRowOf "album" "2020-01-01" "t" "b"]
          [calRowOf "album" "2020-01-01" "t" "b",
            calRowOf "album" "2021-02-02" "u" "v"] ∧
      (merge_calendar [calRowOf "album" "2020-01-01" "t" "b"]
          [calRowOf "album" "2020-01-01" "t" "b",
            calRowOf "album" "2021-02-02" "u" "v"]).length = 2 := by
  obtain ⟨w1, w2, w3, w4⟩ := merge_outputs_unique_keys "2026-10-12"
    [canonRowOf "a" "b" "" ""]
    [canonRowOf "a" "b" "" "", canonRowOf "c" "d" "" ""]
    [calRowOf "album" "2020-01-01" "t" "b"]
    [calRowOf "album" "2020-01-01" "t" "b", calRowOf "album" "2021-02-02" "u" "v"]
    (by decide) (by decide) (by decide) (by decide)
  exact ⟨w1, w2, w3 _ (by decide), by rw [w4]; decide⟩

/-! ## C5 : sortedness of the merged calendar -/

/-- C5 (amended) : whenever the incoming frame is nonempty, the frame
returned by `merge_calendar` is in ascending lexicographic order of
`(iso_date, work_type, title)` (amendment: with an empty incoming frame
the function returns the existing frame untouched, so an unsorted
existing frame stays unsorted). -/
theorem merge_calendar_sorted_when_new_nonempty
    (existing new_rows : List CalRow) (h : new_rows ≠ []) :
    (merge_calendar existing new_rows).Sorted calLe := by
  unfold merge_calendar
  have hne : new_rows.isEmpty = false := by
    cases new_rows with
    | nil => exact absurd rfl h
    | cons a l => rfl
  rw [hne]
  simp only [Bool.false_eq_true, if_false]
  exact List.sorted_insertionSort calLe _

/-- Counterexample to C5 as literally stated: with an out-of-order
existing frame and an empty incoming frame, `merge_calendar` returns the
existing frame untouched and unsorted. -/
theorem merge_calendar_sorted_counterexample :
    merge_calendar
        [calRowOf "album" "2021-01-01" "t" "b",
          calRowOf "album" "2020-01-01" "t" "b"] [] =
      [calRowOf "album" "2021-01-01" "t" "b",
        calRowOf "album" "2020-01-01" "t" "b"] ∧
      ¬ (merge_calendar
          [calRowOf "album" "2021-01-01" "t" "b",
            calRowOf "album" "2020-01-01" "t" "b"] []).Sorted calLe :=
  ⟨by decide, by decide⟩

/-- Witness for C5 at a concrete input with a nonempty incoming frame. -/
theorem merge_calendar_sorted_witness :
    ([calRowOf "album" "2020-01-01" "t" "b"] : List CalRow) ≠ [] ∧
      (merge_calendar [calRowOf "album" "2021-01-01" "t" "b"]
          [calRowOf "album" "2020-01-01" "t" "b"]).Sorted calLe :=
  ⟨by decide,
    merge_calendar_sorted_when_new_nonempty _ _ (by decide)⟩

/-! ## C6 : malformed delta rows are skipped -/

theorem rowToCal?_none_of_bad (r : DeltaRow) (h : badDeltaRow r = true) :
    rowToCal? r = none := by
  unfold badDeltaRow at h
  simp only [Bool.or_eq_true, Bool.and_eq_true, decide_eq_true_eq] at h
  rcases h with (h | h) | h
  · unfold rowToCal?
    simp [h]
  · unfold rowToCal?
    simp [h]
  · obtain ⟨hmd, hfb⟩ := h
    have hnone : monthDay? (pytrim r.release_date) r.month r.day = none := by
      unfold monthDay?
      have hfail : ∀ p1 p2,
          (splitDash (pytrim r.release_date)).get? 1 = some p1 →
          (splitDash (pytrim r.release_date)).get? 2 = some p2 →
          pyInt? p1 = none ∨ pyInt? p2 = none := by
        intro p1 p2 hg1 hg2
        rcases hfb with hfb | hfb
        · rw [hg1] at hfb
          simp only [Option.some_bind] at hfb
          left
          exact Option.isNone_iff_eq_none.1 hfb
        · rw [hg2] at hfb
          simp only [Option.some_bind] at hfb
          right
          exact Option.isNone_iff_eq_none.1 hfb
      cases hm0 : pyInt? r.month with
      | none =>
        cases hg1 : (splitDash (pytrim r.release_date)).get? 1 with
        | none => rfl
        | some p1 =>
          cases hg2 : (splitDash (pytrim r.release_date)).get? 2 with
          | none => rfl
          | some p2 =>
            dsimp only
            rcases hfail p1 p2 hg1 hg2 with hp | hp
            · rw [hp]
            · rw [hp]
              cases pyInt? r.day <;> cases pyInt? p1 <;> rfl
      | some m0 =>
        cases hd0 : pyInt? r.day with
        | some d0 =>
          exfalso
          rcases hmd with h | h
          · rw [hm0] at h
            simp at h
          · rw [hd0] at h
            simp at h
        | none =>
          cases hg1 : (splitDash (pytrim r.release_date)).get? 1 with
          | none => rfl
          | some p1 =>
            cases hg2 : (splitDash (pytrim r.release_date)).get? 2 with
            | none => rfl
            | some p2 =>
              dsimp only
              rcases hfail p1 p2 hg1 hg2 with hp | hp
              · rw [hp]
              · rw [hp]
                cases pyInt? p1 <;> rfl
    unfold rowToCal?
    dsimp only
    split
    · rfl
    · rw [hnone]

theorem build_album_calendar_rows_filter (delta : List DeltaRow) :
    build_album_calendar_rows delta =
      build_album_calendar_rows (delta.filter (fun r => !(badDeltaRow r))) := by
  induction delta with
  | nil => rfl
  | cons r rs ih =>
    by_cases hb : badDeltaRow r = true
    · have h0 : rowToCal? r = none := rowToCal?_none_of_bad r hb
      unfold build_album_calendar_rows at ih ⊢
      rw [List.filter_cons_of_neg (by simp [hb]), List.filterMap_cons_none h0]
      exact ih
    · have hb2 : badDeltaRow r = false := by
        cases hEq : badDeltaRow r
        · rfl
        · exact absurd hEq hb
      unfold build_album_calendar_rows at ih ⊢
      rw [List.filter_cons_of_pos (by simp [hb2])]
      cases hr : rowToCal? r with
      | none => rw [List.filterMap_cons_none hr, List.filterMap_cons_none hr, ih]
      | some v =>
        rw [List.filterMap_cons_some hr, List.filterMap_cons_some hr, ih]

/-- C6 : `build_album_calendar_rows` emits no calendar row for any input
row whose stripped release date or title is blank, or whose month and
day parse neither from the month/day fields nor from the iso date
string; the per-row conversion is a total function (`none` models the
`continue`), so no such row can raise, and dropping the malformed rows
beforehand leaves the output unchanged. -/
theorem build_album_calendar_rows_skips_malformed (delta : List DeltaRow) :
    (∀ r ∈ delta, badDeltaRow r = true → rowToCal? r = none) ∧
      build_album_calendar_rows delta =
        build_album_calendar_rows (delta.filter (fun r => !(badDeltaRow r))) :=
  ⟨fun r _ h => rowToCal?_none_of_bad r h, build_album_calendar_rows_filter delta⟩

/-- Delta row with the given title, release date, month and day and
every other cell blank (concrete test data). -/
def deltaRowOf (title release_date month day : String) : DeltaRow :=
  { work_type := "album", title := title, byline := "",
    release_date := release_date, month := month, day := day, extra := "",
    source_url := "", sales_raw := "", shipments_units := "",
    date_source := "", added_on := "" }

/-- Witness for C6: a row with an unparseable date in both the month/day
fields and the iso date is malformed and produces no calendar row. -/
theorem build_album_calendar_rows_skips_malformed_witness :
    badDeltaRow (deltaRowOf "t" "2020-xx-yy" "" "") = true ∧
      rowToCal? (deltaRowOf "t" "2020-xx-yy" "" "") = none :=
  ⟨by decide,
    (build_album_calendar_rows_skips_malformed
        [deltaRowOf "t" "2020-xx-yy" "" ""]).1
      (deltaRowOf "t" "2020-xx-yy" "" "") (by decide) (by decide)⟩

/-! ## C7 : per-row fault isolation of the MusicBrainz enrichment -/

theorem set_append_length {α : Type} :
    ∀ (pre : List α) (x : α) (t : List α) (v : α),
      (pre ++ x :: t).set pre.length v = pre ++ v :: t := by
  intro pre
  induction pre with
  | nil => intro x t v; rfl
  | cons a as ih =>
    intro x t v
    simp only [List.cons_append, List.length_cons, List.set_cons_succ]
    rw [ih]

theorem enrichStep_fold (lookup : CanonRow → Except Unit (Option String)) :
    ∀ (suf pre : List CanonRow) (f g : Nat),
      ((idxRows pre.length suf).filter
          (fun p => pytrim p.2.musicbrainz_id = "")).foldl (enrichStep lookup)
        (pre ++ suf, f, g) =
      (pre ++ suf.map (enrichRowSpec lookup),
        f + (suf.filter (fun r =>
          mbAttempted r && (mbLookupResult lookup r).isSome)).length,
        g + (suf.filter (fun r =>
          mbAttempted r && (mbLookupResult lookup r).isNone)).length) := by
  intro suf
  induction suf with
  | nil => intro pre f g; simp [idxRows]
  | cons r t ih =>
    intro pre f g
    simp only [idxRows]
    have hlen : pre.length + 1 = (pre ++ [r]).length := by simp
    by_cases hcand : pytrim r.musicbrainz_id = ""
    case neg =>
      have hnoatt : mbAttempted r = false := by
        simp [mbAttempted, hcand]
      have hspec : enrichRowSpec lookup r = r := by
        unfold enrichRowSpec
        rw [hnoatt]
        rfl
      have hf1 : (r :: t).filter (fun r2 =>
            mbAttempted r2 && (mbLookupResult lookup r2).isSome) =
          t.filter (fun r2 => mbAttempted r2 && (mbLookupResult lookup r2).isSome) :=
        List.filter_cons_of_neg (by simp [hnoatt])
      have hf2 : (r :: t).filter (fun r2 =>
            mbAttempted r2 && (mbLookupResult lookup r2).isNone) =
          t.filter (fun r2 => mbAttempted r2 && (mbLookupResult lookup r2).isNone) :=
        List.filter_cons_of_neg (by simp [hnoatt])
      rw [List.filter_cons_of_neg (by simpa using hcand), List.append_cons pre r t,
        hlen, ih (pre ++ [r]) f g, hf1, hf2]
      simp [hspec]
    case pos =>
      rw [List.filter_cons_of_pos (by simpa using hcand), List.foldl_cons]
      by_cases hskip : pytrim r.album = "" ∨ pytrim r.artist = ""
      · have hstep : enrichStep lookup (pre ++ r :: t, f, g) (pre.length, r) =
            (pre ++ r :: t, f, g) := by
          unfold enrichStep
          rcases hskip with h | h <;> simp [h]
        have hnoatt : mbAttempted r = false := by
          rcases hskip with h | h <;> simp [mbAttempted, h]
        have hspec : enrichRowSpec lookup r = r := by
          unfold enrichRowSpec
          rw [hnoatt]
          rfl
        have hf1 : (r :: t).filter (fun r2 =>
              mbAttempted r2 && (mbLookupResult lookup r2).isSome) =
            t.filter (fun r2 => mbAttempted r2 && (mbLookupResult lookup r2).isSome) :=
          List.filter_cons_of_neg (by simp [hnoatt])
        have hf2 : (r :: t).filter (fun r2 =>
              mbAttempted r2 && (mbLookupResult lookup r2).isNone) =
            t.filter (fun r2 => mbAttempted r2 && (mbLookupResult lookup r2).isNone) :=
          List.filter_cons_of_neg (by simp [hnoatt])
        rw [hstep, List.append_cons pre r t, hlen, ih (pre ++ [r]) f g, hf1, hf2]
        simp [hspec]
      · push_neg at hskip
        obtain ⟨hal, har⟩ := hskip
        have hatt : mbAttempted r = true := by
          simp [mbAttempted, hcand, hal, har]
        cases hlk : mbLookupResult lookup r with
        | some m =>
          obtain ⟨r2, hr2⟩ : ∃ r2 : CanonRow,
              ({ r with musicbrainz_id := m } : CanonRow) = r2 := ⟨_, rfl⟩
          have hstep : enrichStep lookup (pre ++ r :: t, f, g) (pre.length, r) =
              (pre ++ r2 :: t, f + 1, g) := by
            unfold enrichStep
            rw [if_neg (by simp [hal, har])]
            have hlk2 : (match lookup r with | .ok v => v | .error _ => none) =
                some m := hlk
            rw [hlk2]
            dsimp only
            rw [set_append_length, hr2]
          have hspec : enrichRowSpec lookup r = r2 := by
            unfold enrichRowSpec
            rw [hatt, hlk, ← hr2]
            rfl
          have hf1 : (r :: t).filter (fun r2 =>
                mbAttempted r2 && (mbLookupResult lookup r2).isSome) =
              r :: t.filter (fun r2 =>
                mbAttempted r2 && (mbLookupResult lookup r2).isSome) :=
            List.filter_cons_of_pos (by simp [hatt, hlk])
          have hf2 : (r :: t).filter (fun r2 =>
                mbAttempted r2 && (mbLookupResult lookup r2).isNone) =
              t.filter (fun r2 => mbAttempted r2 && (mbLookupResult lookup r2).isNone) :=
            List.filter_cons_of_neg (by simp [hatt, hlk])
          have hlen2 : pre.length + 1 = (pre ++ [r2]).length := by
            simp
          rw [hstep, List.append_cons pre r2 t, hlen2,
            ih (pre ++ [r2]) (f + 1) g, hf1, hf2]
          simp [hspec, Nat.add_assoc, Nat.add_comm, Nat.add_left_comm]
        | none =>
          have hstep : enrichStep lookup (pre ++ r :: t, f, g) (pre.length, r) =
              (pre ++ r :: t, f, g + 1) := by
            unfold enrichStep
            rw [if_neg (by simp [hal, har])]
            have hlk2 : (match lookup r with | .ok v => v | .error _ => none) =
                none := hlk
            rw [hlk2]
          have hspec : enrichRowSpec lookup r = r := by
            unfold enrichRowSpec
            rw [hatt, hlk]
            rfl
          have hf1 : (r :: t).filter (fun r2 =>
                mbAttempted r2 && (mbLookupResult lookup r2).isSome) =
              t.filter (fun r2 => mbAttempted r2 && (mbLookupResult lookup r2).isSome) :=
            List.filter_cons_of_neg (by simp [hatt, hlk])
          have hf2 : (r :: t).filter (fun r2 =>
                mbAttempted r2 && (mbLookupResult lookup r2).isNone) =
              r :: t.filter (fun r2 =>
                mbAttempted r2 && (mbLookupResult lookup r2).isNone) :=
            List.filter_cons_of_pos (by simp [hatt, hlk])
          rw [hstep, List.append_cons pre r t, hlen, ih (pre ++ [r]) f (g + 1),
            hf1, hf2]
          simp [hspec, Nat.add_assoc, Nat.add_comm, Nat.add_left_comm]

/-- C7 : the enrichment pass is a total function of the per-row lookup
results (so a raising lookup never aborts the batch): the output frame
is the row-wise map in which each attempted candidate whose lookup
succeeds gets its `musicbrainz_id` filled and every other row — in
particular one whose lookup raises or returns nothing — is unchanged;
`filled`/`failed` count the attempted candidates by lookup outcome, and
with a lookup that always raises the frame is returned unchanged with
every attempted candidate counted as failed. -/
theorem enrich_mbids_never_aborts
    (lookup : CanonRow → Except Unit (Option String)) (df : List CanonRow) :
    enrich_mbids lookup df =
      (df.map (enrichRowSpec lookup),
        (df.filter (fun r =>
          mbAttempted r && (mbLookupResult lookup r).isSome)).length,
        (df.filter (fun r =>
          mbAttempted r && (mbLookupResult lookup r).isNone)).length) ∧
      (enrich_mbids (fun _ => Except.error ()) df).1 = df ∧
      (enrich_mbids (fun _ => Except.error ()) df).2.2 =
        (df.filter mbAttempted).length := by
  have hmain := enrichStep_fold lookup df [] 0 0
  have herr := enrichStep_fold (fun _ => Except.error ()) df [] 0 0
  have hespec : ∀ r : CanonRow,
      enrichRowSpec (fun _ => Except.error ()) r = r := by
    intro r
    unfold enrichRowSpec
    split <;> rfl
  refine ⟨?_, ?_, ?_⟩
  · unfold enrich_mbids
    simpa using hmain
  · unfold enrich_mbids
    refine (congrArg Prod.fst herr).trans ?_
    show [] ++ df.map (enrichRowSpec (fun _ => Except.error ())) = df
    have hc : df.map (enrichRowSpec (fun _ => Except.error ())) = df.map id :=
      List.map_congr_left (fun a _ => hespec a)
    rw [List.nil_append, hc, List.map_id]
  · unfold enrich_mbids
    refine (congrArg (fun q : List CanonRow × Nat × Nat => q.2.2) herr).trans ?_
    show 0 + (df.filter (fun r =>
        mbAttempted r &&
          (mbLookupResult (fun _ => Except.error ()) r).isNone)).length =
      (df.filter mbAttempted).length
    rw [Nat.zero_add]
    congr 1
    refine List.filter_congr ?_
    intro a _
    simp [mbLookupResult]

/-! ## C9 : the songs calendar builder replaces rather than upserts -/

/-- C9 : the merge step of `build_calendar_index_songs.main` drops every
prior row whose stripped `source_system` is `songs_top10_us` and replaces
them wholesale with the freshly built song facts — a row with that
source system occurs in the output exactly as often as among the fresh
facts, its prior copies contributing nothing — while every prior row
with any other source system is preserved. -/
theorem songs_calendar_replaces_song_rows (today : String)
    (existing : List CalRow) (songs : List SongRow) :
    (∀ r : CalRow, pytrim r.source_system = "songs_top10_us" →
      (build_calendar_index_songs_merge today existing songs).count r =
        (build_song_facts today songs).count r) ∧
      (∀ r ∈ existing, pytrim r.source_system ≠ "songs_top10_us" →
        r ∈ build_calendar_index_songs_merge today existing songs) := by
  unfold build_calendar_index_songs_merge
  have hperm := List.perm_insertionSort songsLe
    (existing.filter (fun r => pytrim r.source_system != "songs_top10_us") ++
      build_song_facts today songs)
  constructor
  · intro r hr
    rw [hperm.count_eq r, List.count_append]
    have hzero : (existing.filter
        (fun r2 => pytrim r2.source_system != "songs_top10_us")).count r = 0 := by
      rw [List.count_eq_zero]
      intro hmem
      rw [List.mem_filter] at hmem
      have hne := hmem.2
      simp [hr] at hne
    rw [hzero, Nat.zero_add]
  · intro r hrmem hrne
    refine (hperm.mem_iff).2 ?_
    refine List.mem_append_left _ ?_
    rw [List.mem_filter]
    exact ⟨hrmem, by simpa using hrne⟩

/-- Calendar row with the given `source_system` (concrete test data). -/
def calRowWithSys (sys : String) : CalRow :=
  { calRowOf "album" "2020-01-01" "t" "b" with source_system := sys }

/-- Witness for C9: with one prior song row, one prior non-song row and
no fresh songs, the song row vanishes from the merged output and the
non-song row survives. -/
theorem songs_calendar_replaces_song_rows_witness :
    (build_calendar_index_songs_merge "2026-10-12"
        [calRowWithSys "songs_top10_us", calRowWithSys "births_deaths"]
        []).count (calRowWithSys "songs_top10_us") = 0 ∧
      calRowWithSys "births_deaths" ∈
        build_calendar_index_songs_merge "2026-10-12"
          [calRowWithSys "songs_top10_us", calRowWithSys "births_deaths"] [] :=
  ⟨((songs_calendar_replaces_song_rows "2026-10-12"
        [calRowWithSys "songs_top10_us", calRowWithSys "births_deaths"] []).1
      (calRowWithSys "songs_top10_us") (by decide)).trans (by decide),
    (songs_calendar_replaces_song_rows "2026-10-12"
        [calRowWithSys "songs_top10_us", calRowWithSys "births_deaths"] []).2
      (calRowWithSys "births_deaths") (by decide) (by decide)⟩

end SeedGen
